import Mathlib

/-!
Verification development for the mdui overlay runtime.

The central piece of source code is the `Dialog` custom element
(src/packages/components/src/button/index.ts, second document): its
`onOpenChange` watcher drives the overlay life cycle, `connectedCallback`
installs the Escape-key handler, `disconnectedCallback` releases the scroll
lock, and `onOverlayClick` handles clicks on the overlay layer.  We embed
the watcher as a function that returns the updated component state together
with the ordered trace of observable effects it performs; the effect
vocabulary is interpreted by a small world model.

Timing conventions of the embedding (standard browser event-loop facts):
the `requestAnimationFrame` callback that moves focus into the dialog is
scheduled before the open animations start and fires at the next frame,
i.e. after those animations have started and before they complete (the
design-token durations `medium4`/`short4` are several hundred milliseconds,
far longer than one frame); the `setTimeout` callback that restores focus
after closing runs as a separate task, i.e. after the synchronous remainder
of the close transition, in particular after the `closed` event is emitted.
-/

namespace Mdui

/-- Animated element of a dialog: the overlay layer, the panel, or one of
the `.header, .body, .actions` children queried by `onOpenChange`. -/
inductive El
  | overlay
  | panel
  | child (i : Nat)
deriving DecidableEq, Repr

/-- Direction of an animation: part of the opening transition or of the
closing transition. -/
inductive Dir
  | opening
  | closing
deriving DecidableEq, Repr

/-- Where focus is moved when the dialog opens: the element matching
`[autofocus]` if the query finds one, otherwise the panel element. -/
inductive FocusTarget
  | autofocusEl (id : Nat)
  | panelEl
deriving DecidableEq, Repr

/-- Observable effects performed by the `Dialog` code, in execution order.
`emit*` are events dispatched with `emit(this, ...)`; `stopAnimations` and
`animStart`/`animEnd` abstract the Animation Controller calls
(`stopAnimations`, `animateTo` begin/settle); `modalActivate` /
`modalDeactivate` are `this.modalHelper.activate()` / `.deactivate()`;
`lockScreen`/`unlockScreen` are the scroll-lock helper calls. -/
inductive Ev
  | emitOpen
  | emitClose
  | emitOpened
  | emitClosed
  | emitOverlayClick
  | setScrollTarget
  | setDisplay (v : String)
  | captureFocus (e : Option Nat)
  | modalActivate
  | modalDeactivate
  | lockScreen
  | unlockScreen
  | stopAnimations (e : El)
  | animStart (e : El) (d : Dir)
  | animEnd (e : El) (d : Dir)
  | focusMove (t : FocusTarget)
  | restoreFocus (e : Nat)
deriving DecidableEq, Repr

/-- The reactive fields of one `Dialog` element that `onOpenChange`,
`onOverlayClick` and the keydown handler read or write. `children` holds
identifiers of the `.header, .body, .actions` elements found inside the
panel. -/
structure DialogState where
  «open» : Bool
  closeOnEsc : Bool
  closeOnOverlayClick : Bool
  hasUpdated : Bool
  hasTopAppBar : Bool
  children : List Nat
  originalTrigger : Option Nat
deriving DecidableEq, Repr

/-- Ambient document facts a single `onOpenChange` run depends on: whether
a handler calls `preventDefault` on the cancelable `open` / `close` events,
the currently focused element, the element matching `[autofocus]` inside
the dialog (if any), and which elements have a callable `focus` method. -/
structure Env where
  openPrevented : Bool
  closePrevented : Bool
  activeElement : Option Nat
  autofocusTarget : Option Nat
  focusable : Nat → Bool

/-- Elements passed to `stopAnimations` by `onOpenChange`: the overlay, the
panel, and each of the queried children. -/
def dialogEls (s : DialogState) : List El :=
  [El.overlay, El.panel] ++ s.children.map El.child

/-- Elements receiving one `animateTo` call each: the overlay fade, the
panel transform, the panel fade (two animations on the panel), and one fade
per child. -/
def animEls (s : DialogState) : List El :=
  [El.overlay, El.panel, El.panel] ++ s.children.map El.child

def stopsFor (els : List El) : List Ev :=
  els.map Ev.stopAnimations

def startsFor (els : List El) (d : Dir) : List Ev :=
  els.map (fun e => Ev.animStart e d)

def endsFor (els : List El) (d : Dir) : List Ev :=
  els.map (fun e => Ev.animEnd e d)

/-- Focus destination chosen by the `requestAnimationFrame` callback:
`this.querySelector('[autofocus]')` when it matches, else the panel. -/
def focusTargetOf (env : Env) : FocusTarget :=
  match env.autofocusTarget with
  | some a => FocusTarget.autofocusEl a
  | none => FocusTarget.panelEl

/-- Effects of the open branch of `onOpenChange` up to and including the
start of the open animations (the `Promise.all` of `animateTo` calls):
emit cancelable `open`; set the top-app-bar scroll target when present;
`style.display = 'flex'`; record `document.activeElement` into
`originalTrigger`; `modalHelper.activate()`; `lockScreen(this)`;
`stopAnimations` on overlay, panel and children; then start the open
animations. -/
def openPrefix (env : Env) (s : DialogState) : List Ev :=
  [Ev.emitOpen]
    ++ (if s.hasTopAppBar then [Ev.setScrollTarget] else [])
    ++ [Ev.setDisplay "flex", Ev.captureFocus env.activeElement,
        Ev.modalActivate, Ev.lockScreen]
    ++ stopsFor (dialogEls s)
    ++ startsFor (animEls s) Dir.opening

/-- The open branch of `onOpenChange` (`this.open` is true).  When the
cancelable `open` event is prevented the function returns immediately.
Otherwise the trace is `openPrefix`, then the deferred focus move (the
`requestAnimationFrame` callback fires at the next frame, while the open
animations are running), then the settling of the open animations, then
the `opened` event. -/
def openRun (env : Env) (s : DialogState) : DialogState × List Ev :=
  if env.openPrevented then
    (s, [Ev.emitOpen])
  else
    ({ s with originalTrigger := env.activeElement },
      openPrefix env s
        ++ [Ev.focusMove (focusTargetOf env)]
        ++ endsFor (animEls s) Dir.opening
        ++ [Ev.emitOpened])

/-- The focus restoration `setTimeout(() => trigger.focus())` scheduled by
the close branch, guarded by `typeof trigger?.focus === 'function'`: it is
scheduled before `closed` is emitted but, being a separate task, executes
after the synchronous remainder of the close transition. -/
def restoreList (env : Env) (s : DialogState) : List Ev :=
  match s.originalTrigger with
  | some t => if env.focusable t then [Ev.restoreFocus t] else []
  | none => []

/-- The close branch of `onOpenChange` (`this.open` is false and
`this.hasUpdated`). When the cancelable `close` event is prevented the
function returns immediately. Otherwise: `modalHelper.deactivate()`;
`stopAnimations` on overlay, panel and children; run the close animations;
`style.display = 'none'`; `unlockScreen(this)`; schedule focus restoration
when the captured trigger has a callable `focus`; emit `closed`. The
deferred restoration executes after the `closed` event, so it appears last
in the trace. -/
def closeRun (env : Env) (s : DialogState) : DialogState × List Ev :=
  if env.closePrevented then
    (s, [Ev.emitClose])
  else
    (s, [Ev.emitClose, Ev.modalDeactivate]
      ++ stopsFor (dialogEls s)
      ++ startsFor (animEls s) Dir.closing
      ++ endsFor (animEls s) Dir.closing
      ++ [Ev.setDisplay "none", Ev.unlockScreen, Ev.emitClosed]
      ++ restoreList env s)

/-- The `@watch('open')` handler `onOpenChange`: open branch when
`this.open`, close branch when `this.hasUpdated`, nothing otherwise (the
initial update merely awaits `updateComplete` first, which changes no
observable effect ordering). -/
def onOpenChange (env : Env) (s : DialogState) : DialogState × List Ev :=
  if s.«open» then openRun env s
  else if s.hasUpdated then closeRun env s
  else (s, [])

/-- `onOverlayClick`: always emits `overlay-click`; returns unless
`closeOnOverlayClick`; otherwise sets `this.open = false`. -/
def onOverlayClick (s : DialogState) : DialogState × List Ev :=
  if s.closeOnOverlayClick then
    ({ s with «open» := false }, [Ev.emitOverlayClick])
  else
    (s, [Ev.emitOverlayClick])

/-- World model interpreting an effect trace: CSS display of the dialog,
whether its modal context is pushed, whether it holds a scroll-lock unit,
the multiset of animations currently running per element, where focus was
moved, and where focus was last restored to. -/
structure World where
  display : String
  modalActive : Bool
  lockHeld : Bool
  running : List (El × Dir)
  focusedIn : Option FocusTarget
  restoredTo : Option Nat
deriving DecidableEq, Repr

def applyEv (w : World) : Ev → World
  | Ev.setDisplay v => { w with display := v }
  | Ev.modalActivate => { w with modalActive := true }
  | Ev.modalDeactivate => { w with modalActive := false }
  | Ev.lockScreen => { w with lockHeld := true }
  | Ev.unlockScreen => { w with lockHeld := false }
  | Ev.stopAnimations e =>
      { w with running := w.running.filter (fun p => decide (p.1 ≠ e)) }
  | Ev.animStart e d => { w with running := (e, d) :: w.running }
  | Ev.animEnd e d =>
      { w with running := @List.erase _ instBEqOfDecidableEq w.running (e, d) }
  | Ev.focusMove t => { w with focusedIn := some t }
  | Ev.restoreFocus t => { w with restoredTo := some t }
  | _ => w

def applyTrace (w : World) (tr : List Ev) : World :=
  tr.foldl applyEv w

/-- The dialog before it is ever opened: hidden, no modal context, no lock,
no running animation. -/
def initWorld : World :=
  { display := "none", modalActive := false, lockHeld := false,
    running := [], focusedIn := none, restoredTo := none }

/-! ### Event classification and ordering within a trace -/

def isCapture : Ev → Bool
  | Ev.captureFocus _ => true
  | _ => false

def isActivate : Ev → Bool
  | Ev.modalActivate => true
  | _ => false

def isLock : Ev → Bool
  | Ev.lockScreen => true
  | _ => false

def isStop : Ev → Bool
  | Ev.stopAnimations _ => true
  | _ => false

def isAnimStart : Ev → Bool
  | Ev.animStart _ _ => true
  | _ => false

def isAnimEnd : Ev → Bool
  | Ev.animEnd _ _ => true
  | _ => false

def isFocusMove : Ev → Bool
  | Ev.focusMove _ => true
  | _ => false

def isOpened : Ev → Bool
  | Ev.emitOpened => true
  | _ => false

def isClosed : Ev → Bool
  | Ev.emitClosed => true
  | _ => false

def isRestore : Ev → Bool
  | Ev.restoreFocus _ => true
  | _ => false

/-- Every event satisfying `p` occurs strictly before every event
satisfying `q` in the trace. -/
def EvBefore (tr : List Ev) (p q : Ev → Bool) : Prop :=
  ∀ i j, ∀ hi : i < tr.length, ∀ hj : j < tr.length,
    p (tr.get ⟨i, hi⟩) = true → q (tr.get ⟨j, hj⟩) = true → i < j

/-- Executable variant of `EvBefore`, used to evaluate claimed orderings on
concrete traces: positions of `p`-events all precede positions of
`q`-events. -/
def evBeforeB (tr : List Ev) (p q : Ev → Bool) : Bool :=
  ((tr.enum.filter (fun x => p x.2)).map (fun x => x.1)).all
    (fun i => ((tr.enum.filter (fun x => q x.2)).map (fun x => x.1)).all
      (fun j => decide (i < j)))

def lastIs (tr : List Ev) (p : Ev → Bool) : Bool :=
  match tr.getLast? with
  | some e => p e
  | none => false

/-- Two animations on the same element running in opposite directions. -/
def conflicted (running : List (El × Dir)) : Bool :=
  running.any (fun p => running.any
    (fun q => decide (p.1 = q.1) && decide (p.2 ≠ q.2)))

/-- After every single event of the trace, the set of running animations is
free of opposite-direction conflicts on any element. -/
def conflictFreeRun (w : World) : List Ev → Bool
  | [] => true
  | e :: rest =>
    let w2 := applyEv w e
    !conflicted w2.running && conflictFreeRun w2 rest

/-- Every running animation has the given direction. -/
def AllDir (running : List (El × Dir)) (d : Dir) : Prop :=
  ∀ p ∈ running, p.2 = d

/-- The sequence asserted by the spec for the opening transition: capture
focus, then push the Overlay Context, then increment the scroll lock, then
run the open animation to completion, then (after the animation) move focus
into the overlay, then emit `opened` last, with focus going to the
autofocus target when present and otherwise to the panel. -/
def claimedOpenSequence (env : Env) (tr : List Ev) : Bool :=
  evBeforeB tr isCapture isActivate
    && evBeforeB tr isActivate isLock
    && evBeforeB tr isLock isAnimStart
    && evBeforeB tr isAnimStart isAnimEnd
    && evBeforeB tr isAnimEnd isFocusMove
    && evBeforeB tr isFocusMove isOpened
    && lastIs tr isOpened
    && decide (Ev.focusMove (focusTargetOf env) ∈ tr)

/-- The assertions of the spec for the closing transition: the close
animation runs, the context is popped, the lock is released, focus is
restored exactly when the captured element still supports focus, and the
`closed` event is emitted last. -/
def claimedCloseSequence (env : Env) (s : DialogState) (tr : List Ev) : Bool :=
  tr.any isAnimStart
    && tr.any (fun e => decide (e = Ev.modalDeactivate))
    && tr.any (fun e => decide (e = Ev.unlockScreen))
    && (match s.originalTrigger with
        | some t => (if env.focusable t then tr.any
            (fun e => decide (e = Ev.restoreFocus t)) else !(tr.any isRestore))
        | none => !(tr.any isRestore))
    && lastIs tr isClosed

/-- A concrete document environment: no handler prevents the events, the
element 5 is focused, no autofocus target, every element focusable. -/
def sampleEnv : Env :=
  { openPrevented := false, closePrevented := false,
    activeElement := some 5, autofocusTarget := none,
    focusable := fun _ => true }

/-- A concrete dialog with one animated child element. -/
def sampleDialog : DialogState :=
  { «open» := true, closeOnEsc := false, closeOnOverlayClick := false,
    hasUpdated := true, hasTopAppBar := false, children := [0],
    originalTrigger := none }

/-! ### Scroll lock reference counting (claim C2)

`lockScreen`/`unlockScreen` are imported from
`@mdui/shared/helpers/scroll.js`, which is not among the sources here; only
their call sites are (`onOpenChange` and `disconnectedCallback`). -/

/-- Modelled from the spec: the process-wide scroll-lock state of the
missing `@mdui/shared/helpers/scroll.js`.  The Scroll Lock Counter is
reference-counted across overlays; each Overlay Context carries a boolean
"owns a scroll-lock unit", so the state is the set of overlay sources
currently owning a unit and the counter is its size. -/
structure LockState where
  owners : List Nat
deriving DecidableEq, Repr

/-- Modelled from the spec: `lockScreen(source)` — the activation of
`source` requests one scroll-lock unit; a source owns at most one unit, so
a second request by the same source is absorbed. -/
def lockScreen (src : Nat) (g : LockState) : LockState :=
  if src ∈ g.owners then g else ⟨src :: g.owners⟩

/-- Modelled from the spec: `unlockScreen(source)` — releases the unit
owned by `source` if any; releasing without owning (abnormal teardown such
as disconnecting a never-opened dialog) changes nothing, keeping increments
and decrements exactly paired. -/
def unlockScreen (src : Nat) (g : LockState) : LockState :=
  ⟨g.owners.erase src⟩

/-- The Scroll Lock Counter: number of lock units currently held. -/
def lockCount (g : LockState) : Nat :=
  g.owners.length

/-- Operations on the overlay population, as issued by the source call
sites: setting the open intent (the open branch of `onOpenChange` calls
`lockScreen(this)` unless the cancelable `open` event was prevented),
setting the close intent (the close branch calls `unlockScreen(this)`
unless `close` was prevented), and `disconnectedCallback`, which calls
`unlockScreen(this)` unconditionally. -/
inductive OvOp
  | openIntent (d : Nat) (prevented : Bool)
  | closeIntent (d : Nat) (prevented : Bool)
  | disconnect (d : Nat)
deriving DecidableEq, Repr

/-- Population state: the dialogs whose `open` property is true (the
`@watch` only fires when the property changes), the dialogs whose
activation actually ran (they hold a lock unit), and the shared lock
state. -/
structure Scene where
  propOpen : List Nat
  active : List Nat
  lock : LockState
deriving DecidableEq, Repr

def activate (d : Nat) (a : List Nat) : List Nat :=
  if d ∈ a then a else d :: a

/-- One step of the overlay population.  Setting `open` to a value it
already has does not fire the watcher; a prevented `open` event leaves the
property set but performs no activation; a prevented `close` event leaves
the overlay active. -/
def stepOp (sc : Scene) : OvOp → Scene
  | OvOp.openIntent d prev =>
    if d ∈ sc.propOpen then sc
    else if prev then { sc with propOpen := d :: sc.propOpen }
    else { propOpen := d :: sc.propOpen, active := activate d sc.active,
           lock := lockScreen d sc.lock }
  | OvOp.closeIntent d prev =>
    if d ∈ sc.propOpen then
      if prev then { sc with propOpen := sc.propOpen.erase d }
      else { propOpen := sc.propOpen.erase d, active := sc.active.erase d,
             lock := unlockScreen d sc.lock }
    else sc
  | OvOp.disconnect d =>
    { sc with active := sc.active.erase d, lock := unlockScreen d sc.lock }

def initScene : Scene :=
  { propOpen := [], active := [], lock := ⟨[]⟩ }

def runOps (ops : List OvOp) : Scene :=
  ops.foldl stepOp initScene

/-! ### Escape key handling over stacked overlays (claim C3) -/

/-- The keydown handler installed by `connectedCallback`: when the dialog
is open, `closeOnEsc` is set and the key is Escape, it stops propagation
and sets `this.open = false`.  Returns the updated state and whether
propagation was stopped. -/
def dialogKeydown (s : DialogState) (key : String) : DialogState × Bool :=
  if s.«open» && s.closeOnEsc && key == "Escape" then
    ({ s with «open» := false }, true)
  else (s, false)

/-- Replace the value stored for key `i` in an association list, keeping
every other entry. -/
def updateAssoc {β : Type} (l : List (Nat × β)) (i : Nat) (v : β) :
    List (Nat × β) :=
  l.map (fun p => if p.1 = i then (i, v) else p)

/-- Dispatch a key event along its propagation path (innermost dialog
first): each dialog on the path runs its keydown handler; a handler that
stops propagation prevents the rest of the path from seeing the event. -/
def dispatchKeydown (key : String) :
    List Nat → List (Nat × DialogState) → List (Nat × DialogState)
  | [], ds => ds
  | i :: rest, ds =>
    match ds.lookup i with
    | none => dispatchKeydown key rest ds
    | some s =>
      let r := dialogKeydown s key
      let ds2 := updateAssoc ds i r.1
      if r.2 then ds2 else dispatchKeydown key rest ds2

/-- Modelled from the spec: the Modal helper (imported from
`@mdui/shared/helpers/modal.js`, not among the sources) traps focus within
the topmost Overlay Context and marks deeper content inert, and the dialog
elements are siblings, so the propagation path of a key event meets exactly
the topmost context of the stack (held here topmost-first): deeper contexts
never see the keydown. -/
def escapePath (stack : List Nat) : List Nat :=
  stack.take 1

/-! ### Serialized options parsing (claim C9) -/

/-- Split a character list at every occurrence of the separator; the
result is always nonempty. -/
def splitOnChar (c : Char) : List Char → List (List Char)
  | [] => [[]]
  | x :: xs =>
    match splitOnChar c xs with
    | [] => [[x]]
    | y :: ys => if x = c then [] :: y :: ys else (x :: y) :: ys

/-- Drop leading and trailing whitespace. -/
def trimChars (l : List Char) : List Char :=
  ((l.dropWhile Char.isWhitespace).reverse.dropWhile
    Char.isWhitespace).reverse

/-- Entries of a serialized options string are comma-separated. -/
def splitEntries (s : String) : List String :=
  (splitOnChar ',' s.toList).map String.mk

/-- Modelled from the spec: one entry of the serialized options mapping
accepted by `$.parseOptions` (not among the sources): a `key: value` pair;
an entry that is not of that shape, or whose trimmed key or value is
empty, is malformed and yields nothing instead of raising. -/
def parseEntry (e : String) : Option (String × String) :=
  match splitOnChar ':' e.toList with
  | [k, v] =>
    if (trimChars k).isEmpty || (trimChars v).isEmpty then none
    else some (String.mk (trimChars k), String.mk (trimChars v))
  | _ => none

/-- Modelled from the spec: `$.parseOptions` parses a serialized string
into a plain key/value mapping; each entry is parsed independently, and
malformed entries are dropped while the rest of the mapping is still
produced. -/
def parseOptions (s : String) : List (String × String) :=
  (splitEntries s).filterMap parseEntry

/-- Declarative characterisation of a well-formed entry, stated
independently of the parser: exactly one colon, with nonempty trimmed key
and value. -/
def wellFormedEntry (e : String) : Bool :=
  match splitOnChar ':' e.toList with
  | [k, v] => !(trimChars k).isEmpty && !(trimChars v).isEmpty
  | _ => false

def entryKey (e : String) : String :=
  match splitOnChar ':' e.toList with
  | k :: _ => String.mk (trimChars k)
  | [] => ""

def entryVal (e : String) : String :=
  match splitOnChar ':' e.toList with
  | [_, v] => String.mk (trimChars v)
  | _ => ""

/-! ### Declarative `data-md-dialog` trigger (claim C7) -/

/-- Modelled from the spec: `$.getData(node, key)` of the Node Data Store
(not among the sources): the per-node keyed value, `none` when absent. -/
def getData (store : List (Nat × List (String × Nat))) (node : Nat)
    (key : String) : Option Nat :=
  (store.lookup node).bind (fun m => m.lookup key)

/-- Modelled from the spec: `$.setData(node, key, value)`: creates the
node's entry lazily on first write, otherwise adds the key to the existing
entry. -/
def setData (store : List (Nat × List (String × Nat))) (node : Nat)
    (key : String) (v : Nat) : List (Nat × List (String × Nat)) :=
  match store.lookup node with
  | none => (node, [(key, v)]) :: store
  | some m => updateAssoc store node ((key, v) :: m)

/-- State of the declarative trigger world: the Node Data Store, the next
fresh controller identity, the log of controller constructions
`(node, instance)`, and the log of `open()` invocations. -/
structure TrigWorld where
  store : List (Nat × List (String × Nat))
  nextInst : Nat
  constructedFor : List (Nat × Nat)
  openCalls : List Nat
deriving Repr

/-- Document context of a click on a `[data-md-dialog]` element: the
attribute value and the selector resolution `$.dom(...)[0]`. -/
structure ClickEnv where
  attrValue : String
  resolve : String → Option Nat

/-- The delegated click handler for `[data-md-dialog]` (first unnamed
source file): parse the attribute into options, take and remove the
`target` selector, resolve it to a node, fetch the stored controller under
key `mdui.dialog`, construct and store one (`new mdui.Dialog(dialog,
options)`) only when none is stored yet, then invoke `open()` on it. -/
def dialogClick (env : ClickEnv) (w : TrigWorld) : TrigWorld :=
  let options := parseOptions env.attrValue
  match options.lookup "target" with
  | none => w
  | some sel =>
    match env.resolve sel with
    | none => w
    | some node =>
      match getData w.store node "mdui.dialog" with
      | some inst => { w with openCalls := inst :: w.openCalls }
      | none =>
        { w with
          store := setData w.store node "mdui.dialog" w.nextInst,
          nextInst := w.nextInst + 1,
          constructedFor := (node, w.nextInst) :: w.constructedFor,
          openCalls := w.nextInst :: w.openCalls }

def iterClicks (env : ClickEnv) : Nat → TrigWorld → TrigWorld
  | 0, w => w
  | k + 1, w => iterClicks env k (dialogClick env w)

/-- How many controllers were ever constructed for `node`. -/
def constructedCount (w : TrigWorld) (node : Nat) : Nat :=
  (w.constructedFor.filter (fun p => decide (p.1 = node))).length

/-! ### Plugin registry `$.fn.extend` (claim C8) -/

/-- A Collection: ordered node references. -/
def Collection : Type :=
  List Nat

/-- The capability table standing for the `$.fn` prototype object: one
shared name-to-implementation mapping consulted at call time. -/
def FnTable (α : Type) : Type :=
  String → Option α

/-- The single assignment `$.fn[prop] = value`. -/
def fnAssign {α : Type} (fn : FnTable α) (prop : String) (v : α) :
    FnTable α :=
  fun n => if n = prop then some v else fn n

/-- `$.fn.extend(obj)` (third unnamed source file): `eachObject` iterates
the entries of `obj` in order and assigns each onto `$.fn`. -/
def fnExtend {α : Type} (fn : FnTable α) (obj : List (String × α)) :
    FnTable α :=
  obj.foldl (fun acc pv => fnAssign acc pv.1 pv.2) fn

/-- The last value a mapping assigns to a name, if any. -/
def lastAssign {α : Type} : List (String × α) → String → Option α
  | [], _ => none
  | p :: tl, n =>
    match lastAssign tl n with
    | some v => some v
    | none => if p.1 = n then some p.2 else none

/-- Invoking a named capability on a collection: the name is resolved in
the shared table at call time, so one registration serves every Collection
instance, created before or after the registration. -/
def invokeCapability (fn : FnTable (Collection → Collection))
    (coll : Collection) (name : String) : Option Collection :=
  (fn name).map (fun f => f coll)

/-- A close-intent environment where a handler prevents the `open` event. -/
def preventedEnv : Env :=
  { sampleEnv with openPrevented := true }

/-- A dialog about to close whose activation captured element 5. -/
def closingDialog : DialogState :=
  { «open» := false, closeOnEsc := false, closeOnOverlayClick := false,
    hasUpdated := true, hasTopAppBar := false, children := [0],
    originalTrigger := some 5 }

/-- A dialog with `close-on-overlay-click` enabled. -/
def ovEnabledDialog : DialogState :=
  { «open» := true, closeOnEsc := false, closeOnOverlayClick := true,
    hasUpdated := true, hasTopAppBar := false, children := [],
    originalTrigger := none }

/-- A dialog with `close-on-overlay-click` disabled. -/
def ovDisabledDialog : DialogState :=
  { «open» := true, closeOnEsc := false, closeOnOverlayClick := false,
    hasUpdated := true, hasTopAppBar := false, children := [],
    originalTrigger := none }

/-- A stacked dialog with `close-on-esc` enabled (topmost). -/
def escTopDialog : DialogState :=
  { «open» := true, closeOnEsc := true, closeOnOverlayClick := false,
    hasUpdated := true, hasTopAppBar := false, children := [],
    originalTrigger := none }

/-- A stacked dialog with `close-on-esc` enabled (below the topmost). -/
def escLowDialog : DialogState :=
  { «open» := true, closeOnEsc := true, closeOnOverlayClick := false,
    hasUpdated := true, hasTopAppBar := false, children := [],
    originalTrigger := some 9 }

/-- The world of a dialog whose open transition has progressed exactly to
the point where the open animations have started (and neither the deferred
focus move nor the animation settlements have happened yet). -/
def inFlightWorld (env : Env) (s : DialogState) : World :=
  applyTrace initWorld (openPrefix env s)

/-- The dialog state seen by the close branch after the close intent is
set mid-transition. -/
def closingState (s : DialogState) : DialogState :=
  { s with «open» := false, hasUpdated := true }

/-- A concrete trigger context: the attribute value resolves `#dlg` to
node 3. -/
def clickEnv0 : ClickEnv :=
  { attrValue := "target: #dlg",
    resolve := fun sel => if sel = "#dlg" then some 3 else none }

/-- An empty trigger world: nothing stored, no construction yet. -/
def trigW0 : TrigWorld :=
  { store := [], nextInst := 0, constructedFor := [], openCalls := [] }

/-- Position of each event kind within the (non-canceled) open-branch
trace; used to express that the trace is sorted by phase. -/
def openPhase : Ev → Nat
  | Ev.emitOpen => 0
  | Ev.setScrollTarget => 1
  | Ev.setDisplay _ => 2
  | Ev.captureFocus _ => 3
  | Ev.modalActivate => 4
  | Ev.lockScreen => 5
  | Ev.stopAnimations _ => 6
  | Ev.animStart _ _ => 7
  | Ev.focusMove _ => 8
  | Ev.animEnd _ _ => 9
  | Ev.emitOpened => 10
  | _ => 11

/-- Position of each event kind within the (non-canceled) close-branch
trace. -/
def closePhase : Ev → Nat
  | Ev.emitClose => 0
  | Ev.modalDeactivate => 1
  | Ev.stopAnimations _ => 2
  | Ev.animStart _ _ => 3
  | Ev.animEnd _ _ => 4
  | Ev.setDisplay _ => 5
  | Ev.unlockScreen => 6
  | Ev.emitClosed => 7
  | Ev.restoreFocus _ => 8
  | _ => 9

/-! ## Theorems -/

theorem applyTrace_append (w : World) (a b : List Ev) :
    applyTrace w (a ++ b) = applyTrace (applyTrace w a) b := by
  simp [applyTrace, List.foldl_append]

theorem C1_prevented_open_no_side_effects
    (env : Env) (s : DialogState) (w : World)
    (hopen : s.«open» = true) (hprev : env.openPrevented = true)
    (hdisp : w.display = "none") (hlock : w.lockHeld = false)
    (hrun : w.running = []) :
    (onOpenChange env s).1 = s
    ∧ (onOpenChange env s).2 = [Ev.emitOpen]
    ∧ applyTrace w (onOpenChange env s).2 = w
    ∧ Ev.lockScreen ∉ (onOpenChange env s).2
    ∧ (∀ t, Ev.focusMove t ∉ (onOpenChange env s).2)
    ∧ (∀ e d, Ev.animStart e d ∉ (onOpenChange env s).2)
    ∧ (applyTrace w (onOpenChange env s).2).display = "none"
    ∧ (applyTrace w (onOpenChange env s).2).lockHeld = false
    ∧ (applyTrace w (onOpenChange env s).2).running = [] := by
  have h : onOpenChange env s = (s, [Ev.emitOpen]) := by
    simp [onOpenChange, openRun, hopen, hprev]
  rw [h]
  simp [applyTrace, applyEv, hdisp, hlock, hrun]

theorem C1_prevented_open_no_side_effects_witness :
    (onOpenChange preventedEnv sampleDialog).2 = [Ev.emitOpen]
    ∧ applyTrace initWorld (onOpenChange preventedEnv sampleDialog).2
        = initWorld
    ∧ Ev.lockScreen ∉ (onOpenChange preventedEnv sampleDialog).2 := by
  have h := C1_prevented_open_no_side_effects preventedEnv sampleDialog
    initWorld rfl rfl rfl rfl rfl
  exact ⟨h.2.1, h.2.2.1, h.2.2.2.1⟩

theorem open_trace_eq (env : Env) (s : DialogState)
    (hopen : s.«open» = true) (hprev : env.openPrevented = false) :
    (onOpenChange env s).2 =
      [Ev.emitOpen]
        ++ (if s.hasTopAppBar then [Ev.setScrollTarget] else [])
        ++ [Ev.setDisplay "flex", Ev.captureFocus env.activeElement]
        ++ [Ev.modalActivate]
        ++ [Ev.lockScreen]
        ++ stopsFor (dialogEls s)
        ++ startsFor (animEls s) Dir.opening
        ++ [Ev.focusMove (focusTargetOf env)]
        ++ endsFor (animEls s) Dir.opening
        ++ [Ev.emitOpened] := by
  simp [onOpenChange, openRun, openPrefix, hopen, hprev]

@[simp] theorem pairwise_trivial {α : Type} (l : List α) :
    l.Pairwise (fun _ _ => True) := by
  induction l with
  | nil => exact List.Pairwise.nil
  | cons a tl ih => exact List.Pairwise.cons (fun b _ => trivial) ih

@[simp] theorem openPhase_emitOpen : openPhase Ev.emitOpen = 0 := rfl

@[simp] theorem openPhase_scrollTarget : openPhase Ev.setScrollTarget = 1 :=
  rfl

@[simp] theorem openPhase_setDisplay (v : String) :
    openPhase (Ev.setDisplay v) = 2 := rfl

@[simp] theorem openPhase_captureFocus (e : Option Nat) :
    openPhase (Ev.captureFocus e) = 3 := rfl

@[simp] theorem openPhase_modalActivate : openPhase Ev.modalActivate = 4 :=
  rfl

@[simp] theorem openPhase_lockScreen : openPhase Ev.lockScreen = 5 := rfl

@[simp] theorem openPhase_stopAnimations (e : El) :
    openPhase (Ev.stopAnimations e) = 6 := rfl

@[simp] theorem openPhase_animStart (e : El) (d : Dir) :
    openPhase (Ev.animStart e d) = 7 := rfl

@[simp] theorem openPhase_focusMove (t : FocusTarget) :
    openPhase (Ev.focusMove t) = 8 := rfl

@[simp] theorem openPhase_animEnd (e : El) (d : Dir) :
    openPhase (Ev.animEnd e d) = 9 := rfl

@[simp] theorem openPhase_emitOpened : openPhase Ev.emitOpened = 10 := rfl

@[simp] theorem closePhase_emitClose : closePhase Ev.emitClose = 0 := rfl

@[simp] theorem closePhase_modalDeactivate :
    closePhase Ev.modalDeactivate = 1 := rfl

@[simp] theorem closePhase_stopAnimations (e : El) :
    closePhase (Ev.stopAnimations e) = 2 := rfl

@[simp] theorem closePhase_animStart (e : El) (d : Dir) :
    closePhase (Ev.animStart e d) = 3 := rfl

@[simp] theorem closePhase_animEnd (e : El) (d : Dir) :
    closePhase (Ev.animEnd e d) = 4 := rfl

@[simp] theorem closePhase_setDisplay (v : String) :
    closePhase (Ev.setDisplay v) = 5 := rfl

@[simp] theorem closePhase_unlockScreen : closePhase Ev.unlockScreen = 6 :=
  rfl

@[simp] theorem closePhase_emitClosed : closePhase Ev.emitClosed = 7 := rfl

@[simp] theorem closePhase_restoreFocus (t : Nat) :
    closePhase (Ev.restoreFocus t) = 8 := rfl

theorem evBefore_of_phase {phase : Ev → Nat} {tr : List Ev}
    (hs : tr.Pairwise (fun a b => phase a ≤ phase b)) {p q : Ev → Bool}
    (hpq : ∀ a b, p a = true → q b = true → phase a < phase b) :
    EvBefore tr p q := by
  intro i j hi hj hp hq
  rcases Nat.lt_trichotomy i j with h | h | h
  · exact h
  · exfalso
    subst h
    exact absurd (hpq _ _ hp hq) (lt_irrefl _)
  · exfalso
    have hle := List.pairwise_iff_get.1 hs ⟨j, hj⟩ ⟨i, hi⟩ (Fin.mk_lt_mk.2 h)
    have hlt := hpq _ _ hp hq
    omega

set_option maxHeartbeats 2000000 in
theorem openTrace_sorted (env : Env) (s : DialogState)
    (hopen : s.«open» = true) (hprev : env.openPrevented = false) :
    ((onOpenChange env s).2).Pairwise
      (fun a b => openPhase a ≤ openPhase b) := by
  rw [open_trace_eq env s hopen hprev]
  cases htab : s.hasTopAppBar <;>
    simp [List.pairwise_append, List.pairwise_map, List.pairwise_cons,
      List.mem_append, List.mem_map, List.mem_cons, stopsFor, startsFor,
      endsFor, dialogEls, animEls] <;>
    constructor <;>
      aesop

theorem phaseO_capture {a : Ev} (h : isCapture a = true) :
    openPhase a = 3 := by
  cases a <;> simp_all [isCapture]

theorem phaseO_activate {a : Ev} (h : isActivate a = true) :
    openPhase a = 4 := by
  cases a <;> simp_all [isActivate]

theorem phaseO_lock {a : Ev} (h : isLock a = true) : openPhase a = 5 := by
  cases a <;> simp_all [isLock]

theorem phaseO_animStart {a : Ev} (h : isAnimStart a = true) :
    openPhase a = 7 := by
  cases a <;> simp_all [isAnimStart]

theorem phaseO_focusMove {a : Ev} (h : isFocusMove a = true) :
    openPhase a = 8 := by
  cases a <;> simp_all [isFocusMove]

theorem phaseO_animEnd {a : Ev} (h : isAnimEnd a = true) :
    openPhase a = 9 := by
  cases a <;> simp_all [isAnimEnd]

theorem phaseO_opened {a : Ev} (h : isOpened a = true) :
    openPhase a = 10 := by
  cases a <;> simp_all [isOpened]

/-- C4 (amended): the opening transition, when not canceled, performs the
source sequence: capture the focused element, push the Overlay Context,
increment the scroll-lock counter (with inert application inside the modal
activation), stop stale animations, start the open animations, perform the
deferred focus move (to the autofocus target if present, otherwise the
panel) while the animations are running — not after them — settle the
animations, and finally emit `opened`. -/
theorem C4_amended_open_sequence (env : Env) (s : DialogState)
    (hopen : s.«open» = true) (hprev : env.openPrevented = false) :
    (onOpenChange env s).2 =
      [Ev.emitOpen]
        ++ (if s.hasTopAppBar then [Ev.setScrollTarget] else [])
        ++ [Ev.setDisplay "flex", Ev.captureFocus env.activeElement]
        ++ [Ev.modalActivate]
        ++ [Ev.lockScreen]
        ++ stopsFor (dialogEls s)
        ++ startsFor (animEls s) Dir.opening
        ++ [Ev.focusMove (focusTargetOf env)]
        ++ endsFor (animEls s) Dir.opening
        ++ [Ev.emitOpened]
    ∧ EvBefore (onOpenChange env s).2 isCapture isActivate
    ∧ EvBefore (onOpenChange env s).2 isActivate isLock
    ∧ EvBefore (onOpenChange env s).2 isLock isAnimStart
    ∧ EvBefore (onOpenChange env s).2 isAnimStart isFocusMove
    ∧ EvBefore (onOpenChange env s).2 isFocusMove isAnimEnd
    ∧ EvBefore (onOpenChange env s).2 isAnimEnd isOpened
    ∧ (onOpenChange env s).2.getLast? = some Ev.emitOpened
    ∧ Ev.focusMove (focusTargetOf env) ∈ (onOpenChange env s).2 := by
  have hsort := openTrace_sorted env s hopen hprev
  have htr := open_trace_eq env s hopen hprev
  refine ⟨htr, ?_, ?_, ?_, ?_, ?_, ?_, ?_, ?_⟩
  · exact evBefore_of_phase hsort (fun a b ha hb => by
      rw [phaseO_capture ha, phaseO_activate hb]
      omega)
  · exact evBefore_of_phase hsort (fun a b ha hb => by
      rw [phaseO_activate ha, phaseO_lock hb]
      omega)
  · exact evBefore_of_phase hsort (fun a b ha hb => by
      rw [phaseO_lock ha, phaseO_animStart hb]
      omega)
  · exact evBefore_of_phase hsort (fun a b ha hb => by
      rw [phaseO_animStart ha, phaseO_focusMove hb]
      omega)
  · exact evBefore_of_phase hsort (fun a b ha hb => by
      rw [phaseO_focusMove ha, phaseO_animEnd hb]
      omega)
  · exact evBefore_of_phase hsort (fun a b ha hb => by
      rw [phaseO_animEnd ha, phaseO_opened hb]
      omega)
  · rw [htr]
    exact List.getLast?_concat _
  · rw [htr]
    simp

theorem C4_amended_open_sequence_witness :
    (onOpenChange sampleEnv sampleDialog).2.getLast? = some Ev.emitOpened
    ∧ Ev.focusMove (focusTargetOf sampleEnv)
        ∈ (onOpenChange sampleEnv sampleDialog).2 := by
  have h := C4_amended_open_sequence sampleEnv sampleDialog rfl rfl
  exact ⟨h.2.2.2.2.2.2.2.1, h.2.2.2.2.2.2.2.2⟩

/-- C4 counterexample input: in the trace actually produced by the open
branch, the deferred focus move (a `requestAnimationFrame` callback) runs
while the open animations are still in flight, i.e. before the animation
settlements, so the claimed "run the open animation, then move focus"
ordering is violated. -/
theorem C4_claimed_open_sequence_false :
    claimedOpenSequence sampleEnv (onOpenChange sampleEnv sampleDialog).2
      = false := by
  decide

theorem stepOp_preserves {sc : Scene} (op : OvOp)
    (h : sc.lock.owners = sc.active) :
    (stepOp sc op).lock.owners = (stepOp sc op).active := by
  cases op with
  | openIntent d prev =>
    by_cases hp : d ∈ sc.propOpen
    · simpa [stepOp, hp] using h
    · cases prev with
      | false =>
        by_cases hd : d ∈ sc.active
        · simp [stepOp, hp, lockScreen, activate, h, hd]
        · simp [stepOp, hp, lockScreen, activate, h, hd]
      | true => simpa [stepOp, hp] using h
  | closeIntent d prev =>
    by_cases hp : d ∈ sc.propOpen
    · cases prev with
      | false => simp [stepOp, hp, unlockScreen, h]
      | true => simpa [stepOp, hp] using h
    · simpa [stepOp, hp] using h
  | disconnect d =>
    simp [stepOp, unlockScreen, h]

theorem runOps_inv (ops : List OvOp) :
    (runOps ops).lock.owners = (runOps ops).active := by
  suffices h : ∀ sc : Scene, sc.lock.owners = sc.active →
      (ops.foldl stepOp sc).lock.owners = (ops.foldl stepOp sc).active by
    exact h initScene rfl
  induction ops with
  | nil => exact fun sc h => h
  | cons op tl ih => exact fun sc h => ih _ (stepOp_preserves op h)

/-- C2: the Scroll Lock Counter counts exactly the overlays currently
holding a lock unit, for every operation sequence (opens, closes,
prevented opens and closes, disconnections, in any order); once no overlay
is active the counter is exactly 0; a release without a matching
acquisition is a no-op (the counter cannot underflow), a matched release
decrements by exactly one, a release cancels the matching acquisition, and
a repeated acquisition by the same overlay is absorbed — so increments and
decrements are exactly paired even under abnormal teardown. -/
theorem C2_lock_counter_paired :
    (∀ ops : List OvOp,
        lockCount (runOps ops).lock = (runOps ops).active.length)
    ∧ (∀ ops : List OvOp, (runOps ops).active = [] →
        lockCount (runOps ops).lock = 0)
    ∧ (∀ g : LockState, ∀ d, d ∉ g.owners → unlockScreen d g = g)
    ∧ (∀ g : LockState, ∀ d, d ∈ g.owners →
        lockCount (unlockScreen d g) + 1 = lockCount g)
    ∧ (∀ g : LockState, ∀ d, d ∉ g.owners →
        unlockScreen d (lockScreen d g) = g)
    ∧ (∀ g : LockState, ∀ d,
        lockScreen d (lockScreen d g) = lockScreen d g) := by
  refine ⟨?_, ?_, ?_, ?_, ?_, ?_⟩
  · intro ops
    rw [lockCount, runOps_inv ops]
  · intro ops h
    rw [lockCount, runOps_inv ops, h]
    rfl
  · intro g d h
    cases g with
    | mk o => simp [unlockScreen, List.erase_of_not_mem h]
  · intro g d h
    have hpos := List.length_pos_of_mem h
    simp [unlockScreen, lockCount, List.length_erase_of_mem h]
    omega
  · intro g d h
    cases g with
    | mk o => simp [lockScreen, unlockScreen, h]
  · intro g d
    by_cases h : d ∈ g.owners
    · simp [lockScreen, h]
    · simp [lockScreen, h]

theorem C2_lock_counter_paired_witness :
    lockCount (runOps [OvOp.openIntent 1 false, OvOp.openIntent 2 false,
      OvOp.closeIntent 2 false, OvOp.disconnect 1]).lock = 0
    ∧ unlockScreen 7 ⟨[]⟩ = ⟨[]⟩ := by
  have h := C2_lock_counter_paired
  exact ⟨h.2.1 _ (by decide), h.2.2.1 ⟨[]⟩ 7 (by decide)⟩

theorem applyTrace_stopsFor (els : List El) : ∀ w : World,
    applyTrace w (stopsFor els) =
      { w with running := w.running.filter (fun q => decide (q.1 ∉ els)) } := by
  induction els with
  | nil =>
    intro w
    show w = { w with running := w.running.filter (fun q => decide (q.1 ∉ ([] : List El))) }
    simp
  | cons e tl ih =>
    intro w
    show applyTrace (applyEv w (Ev.stopAnimations e)) (stopsFor tl) = _
    rw [ih]
    simp only [applyEv]
    congr 1
    rw [List.filter_filter]
    apply List.filter_congr
    intro a _
    by_cases h1 : a.1 = e <;> by_cases h2 : a.1 ∈ tl <;>
      simp [h1, h2, List.mem_cons]

theorem applyTrace_startsFor (els : List El) (d : Dir) : ∀ w : World,
    applyTrace w (startsFor els d) =
      { w with running := (els.map (fun e => (e, d))).reverse ++ w.running } := by
  induction els with
  | nil =>
    intro w
    show w = { w with running := [] ++ w.running }
    simp
  | cons e tl ih =>
    intro w
    show applyTrace (applyEv w (Ev.animStart e d)) (startsFor tl d) = _
    rw [ih]
    show ({ w with running :=
        (tl.map (fun x => (x, d))).reverse ++ ((e, d) :: w.running) } : World) = _
    simp [List.append_assoc]

theorem applyTrace_endsFor_clear (els : List El) (d : Dir) : ∀ w : World,
    List.Perm w.running (els.map (fun e => (e, d))) →
    applyTrace w (endsFor els d) = { w with running := [] } := by
  induction els with
  | nil =>
    intro w hperm
    have h0 : w.running = [] := hperm.eq_nil
    show w = { w with running := [] }
    rw [← h0]
  | cons e tl ih =>
    intro w hperm
    show applyTrace (applyEv w (Ev.animEnd e d)) (endsFor tl d) = _
    rw [ih (applyEv w (Ev.animEnd e d))
      (((List.cons_perm_iff_perm_erase.mp hperm.symm).2).symm)]
    simp [applyEv]

theorem conflictFreeRun_append (a b : List Ev) : ∀ w : World,
    conflictFreeRun w (a ++ b) =
      (conflictFreeRun w a && conflictFreeRun (applyTrace w a) b) := by
  induction a with
  | nil => intro w; simp [conflictFreeRun, applyTrace]
  | cons e tl ih =>
    intro w
    show conflictFreeRun w (e :: (tl ++ b)) = _
    simp only [conflictFreeRun, ih, Bool.and_assoc]
    rfl

theorem conflicted_false_of_allDir {r : List (El × Dir)} {d : Dir}
    (h : AllDir r d) : conflicted r = false := by
  by_contra hc
  simp only [Bool.not_eq_false] at hc
  rcases List.any_eq_true.mp hc with ⟨p, hp, h2⟩
  rcases List.any_eq_true.mp h2 with ⟨q, hq, h3⟩
  simp only [Bool.and_eq_true, decide_eq_true_eq] at h3
  exact h3.2 ((h p hp).trans (h q hq).symm)

theorem cfr_stops (els : List El) {d : Dir} : ∀ w : World,
    AllDir w.running d → conflictFreeRun w (stopsFor els) = true := by
  induction els with
  | nil => intro w _; rfl
  | cons e tl ih =>
    intro w h
    show conflictFreeRun w (Ev.stopAnimations e :: stopsFor tl) = true
    have hsub : AllDir (applyEv w (Ev.stopAnimations e)).running d :=
      fun p hp => h p (List.mem_of_mem_filter hp)
    simp [conflictFreeRun, conflicted_false_of_allDir hsub, ih _ hsub]

theorem cfr_starts (els : List El) (d : Dir) : ∀ w : World,
    AllDir w.running d → conflictFreeRun w (startsFor els d) = true := by
  induction els with
  | nil => intro w _; rfl
  | cons e tl ih =>
    intro w h
    show conflictFreeRun w (Ev.animStart e d :: startsFor tl d) = true
    have hsub : AllDir (applyEv w (Ev.animStart e d)).running d := by
      intro p hp
      rcases List.mem_cons.mp hp with h1 | h1
      · rw [h1]
      · exact h p h1
    simp [conflictFreeRun, conflicted_false_of_allDir hsub, ih _ hsub]

theorem cfr_ends (els : List El) (d : Dir) : ∀ w : World,
    AllDir w.running d → conflictFreeRun w (endsFor els d) = true := by
  induction els with
  | nil => intro w _; rfl
  | cons e tl ih =>
    intro w h
    show conflictFreeRun w (Ev.animEnd e d :: endsFor tl d) = true
    have hsub : AllDir (applyEv w (Ev.animEnd e d)).running d :=
      fun p hp => h p
        ((@List.erase_sublist (El × Dir) instBEqOfDecidableEq
          (e, d) w.running).subset hp)
    simp [conflictFreeRun, conflicted_false_of_allDir hsub, ih _ hsub]

theorem lookup_updateAssoc_ne {β : Type} (l : List (Nat × β)) (i : Nat)
    (v : β) (j : Nat) (h : j ≠ i) :
    (updateAssoc l i v).lookup j = l.lookup j := by
  induction l with
  | nil => rfl
  | cons p tl ih =>
    obtain ⟨k, b⟩ := p
    have hji : (j == i) = false := by simp [h]
    by_cases hk : k = i
    · subst hk
      have hhd : updateAssoc ((k, b) :: tl) k v = (k, v) :: updateAssoc tl k v := by
        simp [updateAssoc]
      rw [hhd]
      simp only [List.lookup, hji]
      exact ih
    · have hhd : updateAssoc ((k, b) :: tl) i v = (k, b) :: updateAssoc tl i v := by
        simp [updateAssoc, hk]
      rw [hhd]
      simp only [List.lookup]
      cases hjk : (j == k) <;> simp [hjk]
      exact ih

theorem lookup_updateAssoc_self {β : Type} (l : List (Nat × β)) (i : Nat)
    (v : β) (st : β) (h : l.lookup i = some st) :
    (updateAssoc l i v).lookup i = some v := by
  induction l with
  | nil => simp [List.lookup] at h
  | cons p tl ih =>
    obtain ⟨k, b⟩ := p
    by_cases hk : k = i
    · subst hk
      have hhd : updateAssoc ((k, b) :: tl) k v = (k, v) :: updateAssoc tl k v := by
        simp [updateAssoc]
      rw [hhd]
      simp [List.lookup]
    · have hik : (i == k) = false := by
        simp
        exact fun hh => hk hh.symm
      have hhd : updateAssoc ((k, b) :: tl) i v = (k, b) :: updateAssoc tl i v := by
        simp [updateAssoc, hk]
      rw [hhd]
      simp only [List.lookup, hik] at h ⊢
      exact ih h

/-- C3: dispatching an Escape keydown over a stack of overlay contexts
(topmost first, the propagation path meeting only the topmost per the
Modal focus trapping) closes exactly the topmost dialog; every other
dialog, in particular every lower stacked one, is untouched and so remains
active. -/
theorem C3_escape_only_topmost (t : Nat) (rest : List Nat)
    (ds : List (Nat × DialogState)) (st : DialogState)
    (hl : ds.lookup t = some st) (hopen : st.«open» = true)
    (hesc : st.closeOnEsc = true) :
    (dispatchKeydown "Escape" (escapePath (t :: rest)) ds).lookup t
        = some { st with «open» := false }
    ∧ (∀ l, l ≠ t →
        (dispatchKeydown "Escape" (escapePath (t :: rest)) ds).lookup l
          = ds.lookup l)
    ∧ (∀ l sl, l ≠ t → ds.lookup l = some sl →
        (dispatchKeydown "Escape" (escapePath (t :: rest)) ds).lookup l
          = some sl) := by
  have hpath : escapePath (t :: rest) = [t] := by simp [escapePath]
  rw [hpath]
  have hkd : dialogKeydown st "Escape" = ({ st with «open» := false }, true) := by
    simp [dialogKeydown, hopen, hesc]
  simp only [dispatchKeydown, hl, hkd, ite_self]
  refine ⟨lookup_updateAssoc_self ds t _ st hl, ?_, ?_⟩
  · intro l hlt
    exact lookup_updateAssoc_ne ds t _ l hlt
  · intro l sl hlt hsl
    rw [lookup_updateAssoc_ne ds t _ l hlt]
    exact hsl

theorem C3_escape_only_topmost_witness :
    (dispatchKeydown "Escape" (escapePath [1, 2])
        [(1, escTopDialog), (2, escLowDialog)]).lookup 1
      = some { escTopDialog with «open» := false }
    ∧ (dispatchKeydown "Escape" (escapePath [1, 2])
        [(1, escTopDialog), (2, escLowDialog)]).lookup 2
      = some escLowDialog
    ∧ escLowDialog.«open» = true := by
  have h := C3_escape_only_topmost 1 [2]
    [(1, escTopDialog), (2, escLowDialog)] escTopDialog rfl rfl rfl
  exact ⟨h.1, h.2.2 2 escLowDialog (by decide) rfl, rfl⟩

theorem close_trace_eq (env : Env) (s : DialogState)
    (hopen : s.«open» = false) (hupd : s.hasUpdated = true)
    (hprev : env.closePrevented = false) :
    (onOpenChange env s).2 =
      [Ev.emitClose]
        ++ [Ev.modalDeactivate]
        ++ stopsFor (dialogEls s)
        ++ startsFor (animEls s) Dir.closing
        ++ endsFor (animEls s) Dir.closing
        ++ [Ev.setDisplay "none", Ev.unlockScreen]
        ++ [Ev.emitClosed]
        ++ restoreList env s := by
  simp [onOpenChange, closeRun, hopen, hupd, hprev]

theorem restoreList_phase (env : Env) (s : DialogState) :
    ∀ ev ∈ restoreList env s, closePhase ev = 8 := by
  intro ev hev
  rcases hot : s.originalTrigger with _ | t <;>
    simp [restoreList, hot] at hev
  rcases hev with ⟨h1, rfl⟩
  simp

set_option maxHeartbeats 2000000 in
theorem closeTrace_sorted (env : Env) (s : DialogState)
    (hopen : s.«open» = false) (hupd : s.hasUpdated = true)
    (hprev : env.closePrevented = false) :
    ((onOpenChange env s).2).Pairwise
      (fun a b => closePhase a ≤ closePhase b) := by
  rw [close_trace_eq env s hopen hupd hprev]
  have hrl := restoreList_phase env s
  rcases hot : s.originalTrigger with _ | t
  · simp [restoreList, hot, List.pairwise_append, List.pairwise_map,
      List.pairwise_cons, List.mem_append, List.mem_map, List.mem_cons,
      stopsFor, startsFor, endsFor, dialogEls, animEls]
    constructor <;>
      aesop
  · cases hf : env.focusable t <;>
      simp [restoreList, hot, hf, List.pairwise_append, List.pairwise_map,
        List.pairwise_cons, List.mem_append, List.mem_map, List.mem_cons,
        stopsFor, startsFor, endsFor, dialogEls, animEls] <;>
      constructor <;>
        aesop

theorem phaseC_stop {a : Ev} (h : isStop a = true) : closePhase a = 2 := by
  cases a <;> simp_all [isStop]

theorem phaseC_animStart {a : Ev} (h : isAnimStart a = true) :
    closePhase a = 3 := by
  cases a <;> simp_all [isAnimStart]

theorem phaseC_animEnd {a : Ev} (h : isAnimEnd a = true) :
    closePhase a = 4 := by
  cases a <;> simp_all [isAnimEnd]

theorem phaseC_closed {a : Ev} (h : isClosed a = true) :
    closePhase a = 7 := by
  cases a <;> simp_all [isClosed]

theorem phaseC_restore {a : Ev} (h : isRestore a = true) :
    closePhase a = 8 := by
  cases a <;> simp_all [isRestore]

theorem restore_mem_iff (env : Env) (s : DialogState)
    (hopen : s.«open» = false) (hupd : s.hasUpdated = true)
    (hprev : env.closePrevented = false) (t : Nat) :
    Ev.restoreFocus t ∈ (onOpenChange env s).2
      ↔ s.originalTrigger = some t ∧ env.focusable t = true := by
  rw [close_trace_eq env s hopen hupd hprev]
  rcases hot : s.originalTrigger with _ | u
  · simp [restoreList, hot, stopsFor, startsFor, endsFor]
  · by_cases hf : env.focusable u
    · have hrl : restoreList env s = [Ev.restoreFocus u] := by
        simp [restoreList, hot, hf]
      rw [hrl]
      simp [stopsFor, startsFor, endsFor]
      constructor
      · rintro rfl
        exact ⟨rfl, hf⟩
      · rintro ⟨h1, h2⟩
        exact h1.symm
    · have hrl : restoreList env s = [] := by
        simp [restoreList, hot, hf]
      rw [hrl]
      simp [stopsFor, startsFor, endsFor]
      rintro h1
      subst h1
      simpa using hf

theorem closeTrace_apply (envC : Env) (s2 : DialogState) (w : World)
    (hA : AllDir w.running Dir.opening)
    (hcov : ∀ q ∈ w.running, q.1 ∈ dialogEls s2)
    (hopen : s2.«open» = false) (hupd : s2.hasUpdated = true)
    (hprev : envC.closePrevented = false) :
    conflictFreeRun w (onOpenChange envC s2).2 = true
    ∧ (applyTrace w (onOpenChange envC s2).2).running = []
    ∧ (applyTrace w (onOpenChange envC s2).2).display = "none"
    ∧ (applyTrace w (onOpenChange envC s2).2).modalActive = false
    ∧ (applyTrace w (onOpenChange envC s2).2).lockHeld = false := by
  obtain ⟨d0, m0, k0, r0, f0, t0⟩ := w
  simp only [] at hA hcov
  have htr := close_trace_eq envC s2 hopen hupd hprev
  have hfil : r0.filter (fun q => decide (q.1 ∉ dialogEls s2)) = [] := by
    rw [List.filter_eq_nil_iff]
    intro q hq
    simp only [decide_eq_true_eq]
    exact fun hq2 => hq2 (hcov q hq)
  have e1 : applyTrace ⟨d0, m0, k0, r0, f0, t0⟩
      ([Ev.emitClose] ++ [Ev.modalDeactivate])
      = ⟨d0, false, k0, r0, f0, t0⟩ := rfl
  have c1 : conflictFreeRun (⟨d0, m0, k0, r0, f0, t0⟩ : World)
      ([Ev.emitClose] ++ [Ev.modalDeactivate]) = true := by
    simp [conflictFreeRun, applyEv, conflicted_false_of_allDir hA]
  have e2 : applyTrace ⟨d0, m0, k0, r0, f0, t0⟩
      ([Ev.emitClose] ++ [Ev.modalDeactivate] ++ stopsFor (dialogEls s2))
      = ⟨d0, false, k0, [], f0, t0⟩ := by
    rw [applyTrace_append, e1, applyTrace_stopsFor]
    simp [hfil]
    intro a b hab
    exact hcov (a, b) hab
  have c2 : conflictFreeRun (⟨d0, m0, k0, r0, f0, t0⟩ : World)
      ([Ev.emitClose] ++ [Ev.modalDeactivate] ++ stopsFor (dialogEls s2))
      = true := by
    rw [conflictFreeRun_append, e1, c1]
    simp [cfr_stops (dialogEls s2) ⟨d0, false, k0, r0, f0, t0⟩ hA]
  have e3 : applyTrace ⟨d0, m0, k0, r0, f0, t0⟩
      ([Ev.emitClose] ++ [Ev.modalDeactivate] ++ stopsFor (dialogEls s2)
        ++ startsFor (animEls s2) Dir.closing)
      = ⟨d0, false, k0,
          ((animEls s2).map (fun e => (e, Dir.closing))).reverse, f0, t0⟩ := by
    rw [applyTrace_append, e2, applyTrace_startsFor]
    simp
  have hA2 : AllDir (([] : List (El × Dir))) Dir.closing := by
    intro p hp
    exact absurd hp (List.not_mem_nil p)
  have c3 : conflictFreeRun (⟨d0, m0, k0, r0, f0, t0⟩ : World)
      ([Ev.emitClose] ++ [Ev.modalDeactivate] ++ stopsFor (dialogEls s2)
        ++ startsFor (animEls s2) Dir.closing) = true := by
    rw [conflictFreeRun_append, e2, c2]
    simp [cfr_starts (animEls s2) Dir.closing ⟨d0, false, k0, [], f0, t0⟩ hA2]
  have hA3 : AllDir (((animEls s2).map (fun e => (e, Dir.closing))).reverse)
      Dir.closing := by
    intro p hp
    rw [List.mem_reverse] at hp
    rcases List.mem_map.mp hp with ⟨e, _, heq⟩
    rw [← heq]
  have e4 : applyTrace ⟨d0, m0, k0, r0, f0, t0⟩
      ([Ev.emitClose] ++ [Ev.modalDeactivate] ++ stopsFor (dialogEls s2)
        ++ startsFor (animEls s2) Dir.closing
        ++ endsFor (animEls s2) Dir.closing)
      = ⟨d0, false, k0, [], f0, t0⟩ := by
    rw [applyTrace_append, e3,
      applyTrace_endsFor_clear (animEls s2) Dir.closing
        ⟨d0, false, k0,
          ((animEls s2).map (fun e => (e, Dir.closing))).reverse, f0, t0⟩
        (List.reverse_perm _)]
  have c4 : conflictFreeRun (⟨d0, m0, k0, r0, f0, t0⟩ : World)
      ([Ev.emitClose] ++ [Ev.modalDeactivate] ++ stopsFor (dialogEls s2)
        ++ startsFor (animEls s2) Dir.closing
        ++ endsFor (animEls s2) Dir.closing) = true := by
    rw [conflictFreeRun_append, e3, c3]
    simp [cfr_ends (animEls s2) Dir.closing
      ⟨d0, false, k0,
        ((animEls s2).map (fun e => (e, Dir.closing))).reverse, f0, t0⟩ hA3]
  have e5 : applyTrace ⟨d0, m0, k0, r0, f0, t0⟩
      ([Ev.emitClose] ++ [Ev.modalDeactivate] ++ stopsFor (dialogEls s2)
        ++ startsFor (animEls s2) Dir.closing
        ++ endsFor (animEls s2) Dir.closing
        ++ [Ev.setDisplay "none", Ev.unlockScreen] ++ [Ev.emitClosed])
      = ⟨"none", false, false, [], f0, t0⟩ := by
    rw [applyTrace_append, applyTrace_append, e4]
    rfl
  have c5 : conflictFreeRun (⟨d0, m0, k0, r0, f0, t0⟩ : World)
      ([Ev.emitClose] ++ [Ev.modalDeactivate] ++ stopsFor (dialogEls s2)
        ++ startsFor (animEls s2) Dir.closing
        ++ endsFor (animEls s2) Dir.closing
        ++ [Ev.setDisplay "none", Ev.unlockScreen] ++ [Ev.emitClosed])
      = true := by
    rw [conflictFreeRun_append, conflictFreeRun_append, e4, c4,
      applyTrace_append, e4]
    rfl
  rw [htr]
  refine ⟨?_, ?_, ?_, ?_, ?_⟩
  · rw [conflictFreeRun_append, c5, e5]
    rcases hot : s2.originalTrigger with _ | t
    · simp [restoreList, hot, conflictFreeRun]
    · cases hf : envC.focusable t <;>
        simp [restoreList, hot, hf, conflictFreeRun, applyEv, conflicted]
  all_goals
    rw [applyTrace_append, e5]
    rcases hot : s2.originalTrigger with _ | t
    · simp [restoreList, hot, applyTrace]
    · cases hf : envC.focusable t <;>
        simp [restoreList, hot, hf, applyTrace, applyEv]

theorem inFlightWorld_eq (env : Env) (s : DialogState) :
    inFlightWorld env s =
      { display := "flex", modalActive := true, lockHeld := true,
        running := ((animEls s).map (fun e => (e, Dir.opening))).reverse,
        focusedIn := none, restoredTo := none } := by
  simp only [inFlightWorld, openPrefix, applyTrace_append]
  rw [applyTrace_startsFor, applyTrace_stopsFor]
  cases htab : s.hasTopAppBar <;>
    simp [applyTrace, applyEv, initWorld]

/-- C6: for a dialog whose open animations are still in flight (the world
reached by the opening transition just after its `animateTo` calls), when
the close intent is set and not prevented: the open animations are indeed
running; the close branch performs its `stopAnimations` calls strictly
before starting any close animation; at no point during the close trace do
two opposite-direction animations run on the same element; and the final
state is inactive — display none, modal popped, lock released — with no
animation left running. -/
theorem C6_close_cancels_inflight_animations (envO envC : Env)
    (s : DialogState) (hprev : envC.closePrevented = false) :
    (inFlightWorld envO s).running ≠ []
    ∧ AllDir (inFlightWorld envO s).running Dir.opening
    ∧ EvBefore (onOpenChange envC (closingState s)).2 isStop isAnimStart
    ∧ conflictFreeRun (inFlightWorld envO s)
        (onOpenChange envC (closingState s)).2 = true
    ∧ (applyTrace (inFlightWorld envO s)
        (onOpenChange envC (closingState s)).2).running = []
    ∧ (applyTrace (inFlightWorld envO s)
        (onOpenChange envC (closingState s)).2).display = "none"
    ∧ (applyTrace (inFlightWorld envO s)
        (onOpenChange envC (closingState s)).2).modalActive = false
    ∧ (applyTrace (inFlightWorld envO s)
        (onOpenChange envC (closingState s)).2).lockHeld = false := by
  have hW := inFlightWorld_eq envO s
  have hA : AllDir (inFlightWorld envO s).running Dir.opening := by
    rw [hW]
    intro p hp
    rw [List.mem_reverse] at hp
    rcases List.mem_map.mp hp with ⟨e, _, heq⟩
    rw [← heq]
  have hcov : ∀ q ∈ (inFlightWorld envO s).running,
      q.1 ∈ dialogEls (closingState s) := by
    rw [hW]
    intro q hq
    rw [List.mem_reverse] at hq
    rcases List.mem_map.mp hq with ⟨e, he, heq⟩
    rw [← heq]
    simp only [dialogEls, closingState, animEls] at he ⊢
    simp only [List.mem_append, List.mem_cons, List.not_mem_nil,
      or_false] at he ⊢
    tauto
  have hmain := closeTrace_apply envC (closingState s) (inFlightWorld envO s)
    hA hcov rfl rfl hprev
  have hsort := closeTrace_sorted envC (closingState s) rfl rfl hprev
  refine ⟨?_, hA, ?_, hmain.1, hmain.2.1, hmain.2.2.1, hmain.2.2.2.1,
    hmain.2.2.2.2⟩
  · rw [hW]
    simp [animEls]
  · exact evBefore_of_phase hsort (fun a b ha hb => by
      rw [phaseC_stop ha, phaseC_animStart hb]
      omega)

theorem C6_close_cancels_inflight_animations_witness :
    conflictFreeRun (inFlightWorld sampleEnv sampleDialog)
        (onOpenChange sampleEnv (closingState sampleDialog)).2 = true
    ∧ (applyTrace (inFlightWorld sampleEnv sampleDialog)
        (onOpenChange sampleEnv (closingState sampleDialog)).2).running = []
    ∧ (applyTrace (inFlightWorld sampleEnv sampleDialog)
        (onOpenChange sampleEnv (closingState sampleDialog)).2).display
          = "none" := by
  have h := C6_close_cancels_inflight_animations sampleEnv sampleEnv
    sampleDialog rfl
  exact ⟨h.2.2.2.1, h.2.2.2.2.1, h.2.2.2.2.2.1⟩

/-- C5 counterexample input: with a captured trigger that still supports
focus, the deferred restoration executes after `closed` is emitted, so
`closed` is not last. -/
theorem C5_claimed_close_sequence_false :
    claimedCloseSequence sampleEnv closingDialog
      (onOpenChange sampleEnv closingDialog).2 = false := by
  decide

/-- C5 (amended): the closing transition, when not canceled, pops the
Overlay Context (modal deactivation, restoring inert/aria state), runs the
close animation, hides the dialog, decrements the scroll-lock counter,
emits `closed` as the last synchronous step, and restores focus to the
element captured at activation exactly when that element still supports
receiving focus — but that deferred restoration executes after the
`closed` event, so `closed` is last only when no restoration happens. -/
theorem C5_amended_close_sequence (env : Env) (s : DialogState)
    (hopen : s.«open» = false) (hupd : s.hasUpdated = true)
    (hprev : env.closePrevented = false) :
    (onOpenChange env s).2 =
      [Ev.emitClose]
        ++ [Ev.modalDeactivate]
        ++ stopsFor (dialogEls s)
        ++ startsFor (animEls s) Dir.closing
        ++ endsFor (animEls s) Dir.closing
        ++ [Ev.setDisplay "none", Ev.unlockScreen]
        ++ [Ev.emitClosed]
        ++ restoreList env s
    ∧ (∀ t, Ev.restoreFocus t ∈ (onOpenChange env s).2
        ↔ s.originalTrigger = some t ∧ env.focusable t = true)
    ∧ EvBefore (onOpenChange env s).2 isClosed isRestore
    ∧ (restoreList env s = [] →
        (onOpenChange env s).2.getLast? = some Ev.emitClosed)
    ∧ (∀ t, s.originalTrigger = some t → env.focusable t = true →
        (onOpenChange env s).2.getLast? = some (Ev.restoreFocus t)) := by
  have htr := close_trace_eq env s hopen hupd hprev
  have hsort := closeTrace_sorted env s hopen hupd hprev
  refine ⟨htr, ?_, ?_, ?_, ?_⟩
  · exact fun t => restore_mem_iff env s hopen hupd hprev t
  · exact evBefore_of_phase hsort (fun a b ha hb => by
      rw [phaseC_closed ha, phaseC_restore hb]
      omega)
  · intro hr
    rw [htr, hr, List.append_nil]
    exact List.getLast?_concat _
  · intro t hot hf
    have hrl : restoreList env s = [Ev.restoreFocus t] := by
      simp [restoreList, hot, hf]
    rw [htr, hrl]
    exact List.getLast?_concat _

theorem C5_amended_close_sequence_witness :
    Ev.restoreFocus 5 ∈ (onOpenChange sampleEnv closingDialog).2
    ∧ (onOpenChange sampleEnv closingDialog).2.getLast?
        = some (Ev.restoreFocus 5) := by
  have h := C5_amended_close_sequence sampleEnv closingDialog rfl rfl rfl
  exact ⟨(h.2.1 5).mpr ⟨rfl, rfl⟩, h.2.2.2.2 5 rfl rfl⟩

theorem getData_setData_self (store : List (Nat × List (String × Nat)))
    (node : Nat) (key : String) (v : Nat) :
    getData (setData store node key v) node key = some v := by
  unfold setData
  rcases h : store.lookup node with _ | m
  · simp [getData, List.lookup]
  · simp [getData, lookup_updateAssoc_self store node ((key, v) :: m) m h,
      List.lookup]

theorem dialogClick_fresh (env : ClickEnv) (w : TrigWorld) (sel : String)
    (node : Nat)
    (htarget : (parseOptions env.attrValue).lookup "target" = some sel)
    (hres : env.resolve sel = some node)
    (hfresh : getData w.store node "mdui.dialog" = none) :
    dialogClick env w =
      { store := setData w.store node "mdui.dialog" w.nextInst,
        nextInst := w.nextInst + 1,
        constructedFor := (node, w.nextInst) :: w.constructedFor,
        openCalls := w.nextInst :: w.openCalls } := by
  simp [dialogClick, htarget, hres, hfresh]

theorem dialogClick_steady (env : ClickEnv) (w : TrigWorld) (sel : String)
    (node inst : Nat)
    (htarget : (parseOptions env.attrValue).lookup "target" = some sel)
    (hres : env.resolve sel = some node)
    (hstored : getData w.store node "mdui.dialog" = some inst) :
    dialogClick env w = { w with openCalls := inst :: w.openCalls } := by
  simp [dialogClick, htarget, hres, hstored]

theorem iterClicks_steady (env : ClickEnv) (sel : String) (node inst : Nat)
    (htarget : (parseOptions env.attrValue).lookup "target" = some sel)
    (hres : env.resolve sel = some node) :
    ∀ (m : Nat) (w : TrigWorld),
      getData w.store node "mdui.dialog" = some inst →
      iterClicks env m w
        = { w with openCalls := List.replicate m inst ++ w.openCalls } := by
  intro m
  induction m with
  | zero =>
    intro w h
    show w = { w with openCalls := [] ++ w.openCalls }
    simp
  | succ n ih =>
    intro w h
    show iterClicks env n (dialogClick env w) = _
    rw [dialogClick_steady env w sel node inst htarget hres h]
    rw [ih { w with openCalls := inst :: w.openCalls } h]
    simp [List.replicate_succ', List.append_assoc]

/-- C7: clicking a `[data-md-dialog]` element whose target selector
resolves to a node with no stored controller constructs exactly one
controller, stores it in the Node Data Store under that node, and every
one of the `k ≥ 1` activations — the first included — invokes `open()` on
that same single instance; no second controller is ever constructed for
the node. -/
theorem C7_trigger_lazy_singleton (env : ClickEnv) (w : TrigWorld)
    (sel : String) (node : Nat) (k : Nat)
    (htarget : (parseOptions env.attrValue).lookup "target" = some sel)
    (hres : env.resolve sel = some node)
    (hfresh : getData w.store node "mdui.dialog" = none)
    (hk : 1 ≤ k) :
    constructedCount (iterClicks env k w) node
        = constructedCount w node + 1
    ∧ getData (iterClicks env k w).store node "mdui.dialog"
        = some w.nextInst
    ∧ (iterClicks env k w).openCalls
        = List.replicate k w.nextInst ++ w.openCalls := by
  obtain ⟨m, rfl⟩ : ∃ m, k = m + 1 := ⟨k - 1, by omega⟩
  have hstep : iterClicks env (m + 1) w
      = iterClicks env m (dialogClick env w) := rfl
  rw [hstep, dialogClick_fresh env w sel node htarget hres hfresh]
  have hstored : getData (setData w.store node "mdui.dialog" w.nextInst)
      node "mdui.dialog" = some w.nextInst :=
    getData_setData_self w.store node "mdui.dialog" w.nextInst
  rw [iterClicks_steady env sel node w.nextInst htarget hres m _ hstored]
  refine ⟨?_, hstored, ?_⟩
  · simp [constructedCount]
  · simp [List.replicate_succ', List.append_assoc]

theorem C7_trigger_lazy_singleton_witness :
    constructedCount (iterClicks clickEnv0 2 trigW0) 3 = 1
    ∧ getData (iterClicks clickEnv0 2 trigW0).store 3 "mdui.dialog" = some 0
    ∧ (iterClicks clickEnv0 2 trigW0).openCalls = [0, 0] := by
  have h := C7_trigger_lazy_singleton clickEnv0 trigW0 "#dlg" 3 2
    (by decide) (by decide) rfl (by decide)
  refine ⟨by simpa using h.1, h.2.1, by simpa using h.2.2⟩

theorem fnExtend_apply {α : Type} (obj : List (String × α)) :
    ∀ (fn : FnTable α) (n : String),
    fnExtend fn obj n =
      match lastAssign obj n with
      | some v => some v
      | none => fn n := by
  induction obj with
  | nil => intro fn n; rfl
  | cons p tl ih =>
    intro fn n
    show fnExtend (fnAssign fn p.1 p.2) tl n = _
    rw [ih]
    rcases h : lastAssign tl n with _ | v
    · simp only [lastAssign, h, fnAssign]
      by_cases hpn : p.1 = n
      · simp [hpn]
      · simp [hpn, Ne.symm hpn]
    · simp [lastAssign, h]

/-- C8: `$.fn.extend` installs each entry of the mapping into the single
shared capability table consulted at call time, so the registration is
visible to every Collection, existing or future; re-registering a name
overwrites the previous implementation (last writer wins), and registering
the same mapping twice equals registering it once. -/
theorem C8_plugin_registry {α : Type} :
    (∀ (fn : FnTable α) (n : String) (f g : α),
        fnExtend (fnExtend fn [(n, f)]) [(n, g)] n = some g)
    ∧ (∀ (fn : FnTable α) (obj : List (String × α)),
        fnExtend (fnExtend fn obj) obj = fnExtend fn obj)
    ∧ (∀ (fn : FnTable (Collection → Collection)) (n : String)
        (g : Collection → Collection) (coll : Collection),
        invokeCapability (fnExtend fn [(n, g)]) coll n = some (g coll)) := by
  refine ⟨?_, ?_, ?_⟩
  · intro fn n f g
    simp [fnExtend, fnAssign]
  · intro fn obj
    funext n
    rw [fnExtend_apply, fnExtend_apply]
    rcases h : lastAssign obj n with _ | v <;> simp [h]
  · intro fn n g coll
    simp [invokeCapability, fnExtend, fnAssign]

theorem parseEntry_eq (e : String) :
    parseEntry e = if wellFormedEntry e
      then some (entryKey e, entryVal e) else none := by
  rcases h : splitOnChar ':' e.data with _ | ⟨k, _ | ⟨v, _ | _⟩⟩ <;>
    simp [parseEntry, wellFormedEntry, entryKey, entryVal, String.toList, h]
  by_cases h1 : (trimChars k).isEmpty <;>
    by_cases h2 : (trimChars v).isEmpty <;>
      simp [List.isEmpty_iff] at h1 h2 <;>
        simp [h1, h2]

/-- C9: parsing a serialized options string is total and robust: every
well-formed `key: value` entry of the input appears in the produced
mapping, every malformed entry yields nothing, and the produced mapping is
exactly the well-formed entries of the input, in order — so dropping a
malformed entry never loses the rest of the mapping. -/
theorem C9_parse_options_robust (s : String) :
    (∀ e ∈ splitEntries s, wellFormedEntry e = true →
      (entryKey e, entryVal e) ∈ parseOptions s)
    ∧ (∀ e ∈ splitEntries s, wellFormedEntry e = false →
        parseEntry e = none)
    ∧ parseOptions s
        = ((splitEntries s).filter wellFormedEntry).map
            (fun e => (entryKey e, entryVal e)) := by
  refine ⟨?_, ?_, ?_⟩
  · intro e he hwf
    exact List.mem_filterMap.mpr
      ⟨e, he, by rw [parseEntry_eq, if_pos hwf]⟩
  · intro e he hwf
    rw [parseEntry_eq, if_neg]
    simp [hwf]
  · unfold parseOptions
    generalize splitEntries s = l
    induction l with
    | nil => rfl
    | cons a tl ih =>
      rw [List.filterMap_cons, parseEntry_eq]
      by_cases hwf : wellFormedEntry a = true
      · simp [hwf, ih]
      · simp only [Bool.not_eq_true] at hwf
        simp [hwf, ih]

theorem C9_parse_options_robust_witness :
    ("target", "#dlg")
        ∈ parseOptions "target: #dlg, history false, fullscreen: true"
    ∧ parseEntry " history false" = none
    ∧ parseOptions "target: #dlg, history false, fullscreen: true"
        = [("target", "#dlg"), ("fullscreen", "true")] := by
  have h := C9_parse_options_robust
    "target: #dlg, history false, fullscreen: true"
  refine ⟨?_, ?_, ?_⟩
  · have hm := h.1 "target: #dlg" (by decide) (by decide)
    have hk : entryKey "target: #dlg" = "target" := by decide
    have hv : entryVal "target: #dlg" = "#dlg" := by decide
    rw [hk, hv] at hm
    exact hm
  · exact h.2.1 " history false" (by decide) (by decide)
  · rw [h.2.2]
    decide

theorem C10_overlay_click (s : DialogState) :
    (onOverlayClick s).2 = [Ev.emitOverlayClick]
    ∧ (s.closeOnOverlayClick = true →
        (onOverlayClick s).1 = { s with «open» := false })
    ∧ (s.closeOnOverlayClick = false → (onOverlayClick s).1 = s) := by
  cases h : s.closeOnOverlayClick <;> simp [onOverlayClick, h]

theorem C10_overlay_click_witness :
    (onOverlayClick ovEnabledDialog).2 = [Ev.emitOverlayClick]
    ∧ (onOverlayClick ovEnabledDialog).1.«open» = false
    ∧ (onOverlayClick ovDisabledDialog).1 = ovDisabledDialog := by
  refine ⟨(C10_overlay_click ovEnabledDialog).1, ?_,
    (C10_overlay_click ovDisabledDialog).2.2 rfl⟩
  rw [(C10_overlay_click ovEnabledDialog).2.1 rfl]

end Mdui
